import Mathlib

set_option maxRecDepth 4000

/-!
Verification development for a small Express-based redirect service.

The service classifies each request from its user-agent, picks a redirect
strategy (`header`, `meta`, `js`, `interactive`) with an associated delay,
reconstructs a destination URL from a configured base URL, the request's
original URL and its query parameters, and emits one of four responses.

The definitions below are a shallow embedding of the JavaScript source:
* pure functions become Lean functions;
* `Math.random()` calls become explicit rational parameters in `[0,1)`;
* `Date.now()` becomes an explicit `Nat` parameter;
* the MD5 hex digest becomes an explicit function parameter (its use sites
  only rely on it producing a 32-character lowercase hex string);
* JavaScript `undefined` for absent strings becomes `Option String`;
  string coercion of `undefined` (as in `x + undefined`) yields the
  literal text `undefined`, and the falsy-default idiom `x || d` is
  `jsOr`;
* the WHATWG `URL` platform class (used via `new URL`, `url.pathname = p`,
  `url.searchParams.set/has`, `url.toString()`) is modelled explicitly:
  parsing of `scheme://host/path?query` URLs, percent-encoding of the
  path-setter, and `application/x-www-form-urlencoded` serialization of
  the query.  Fragments (`#`), userinfo, percent-encoding during base-URL
  parsing and full UTF-8 percent-decoding are not modelled; no claim
  depends on them.  Throwing `new URL` is modelled with `Option`.
-/

/-! ### Generic string containment (JavaScript `String.prototype.includes`) -/

/-- Does the list start with the given pattern?  First argument is the
pattern, second the list being searched. -/
def strStarts : List Char → List Char → Bool
  | [], _ => true
  | _ :: _, [] => false
  | a :: as, b :: bs => a == b && strStarts as bs

/-- Does the pattern occur as a contiguous run somewhere in the list? -/
def containsSeq (pat : List Char) : List Char → Bool
  | [] => pat.isEmpty
  | c :: rest => strStarts pat (c :: rest) || containsSeq pat rest

/-- JavaScript `s.includes(pat)` on strings. -/
def strContains (s pat : String) : Bool :=
  containsSeq pat.data s.data

/-! ### Configuration and startup

Source: `CONFIG` reads `process.env.TARGET_URL` with no validation and no
default; `app.listen(PORT, '0.0.0.0', ...)` is invoked unconditionally at
the bottom of the file. -/

/-- JavaScript `x || d` for a possibly-absent string: `undefined` and the
empty string are falsy. -/
def jsOr (x : Option String) (d : String) : String :=
  match x with
  | none => d
  | some s => if s = "" then d else s

/-- JavaScript string coercion of a possibly-`undefined` string value, as
happens in `req.ip + req.get('User-Agent')` and in `new URL(CONFIG.target)`
when `TARGET_URL` is unset. -/
def jsStringOfOpt : Option String → String
  | none => "undefined"
  | some s => s

/-- The relevant part of the process environment. -/
structure Env where
  TARGET_URL : Option String
  PORT : Option String
  MODE : Option String

/-- `CONFIG` from the source: `target` is `process.env.TARGET_URL`
unvalidated (possibly `undefined`), `mode` defaults to `stealth`. -/
structure Config where
  target : Option String
  mode : String

def mkConfig (env : Env) : Config :=
  { target := env.TARGET_URL, mode := jsOr env.MODE "stealth" }

/-- Observable startup state: the listener that `app.listen` creates. -/
structure ServerState where
  listening : Bool
  port : String

/-- Startup sequence of the source file: `CONFIG` is built without any
validation of `TARGET_URL`, and `app.listen(PORT, '0.0.0.0', ...)` is
called unconditionally, so the process listens regardless of the
environment. -/
def startServer (env : Env) : ServerState :=
  { listening := true, port := jsOr env.PORT "3000" }

/-! ### StealthEngine.analyzeRequest -/

/-- Lowercase fragments of `/(nikto|sqlmap|nmap|metasploit|burp|acunetix|nessus|wpscan|dirb|gobuster)/i`. -/
def scannerFrags : List String :=
  ["nikto", "sqlmap", "nmap", "metasploit", "burp", "acunetix", "nessus",
   "wpscan", "dirb", "gobuster"]

/-- Lowercase fragments of `/(bot|crawl|spider|facebookexternalhit|twitterbot|linkedinbot)/i`. -/
def botFrags : List String :=
  ["bot", "crawl", "spider", "facebookexternalhit", "twitterbot", "linkedinbot"]

/-- Lowercase fragments of `/(mozilla|chrome|safari|firefox|edge)/i`. -/
def browserFrags : List String :=
  ["mozilla", "chrome", "safari", "firefox", "edge"]

/-- Lowercase fragments of the browser-exclusion regex `/(bot|crawl)/i`. -/
def botExclusionFrags : List String :=
  ["bot", "crawl"]

/-- `String.prototype.toLowerCase` (character-wise lowercasing). -/
def strToLower (s : String) : String :=
  ⟨s.data.map Char.toLower⟩

/-- A case-insensitive alternation regex `/(f1|f2|...)/i.test(ua)`: some
fragment occurs in the lowercased user-agent (all fragments are lowercase
and contain no regex metacharacters). -/
def reTest (frags : List String) (ua : String) : Bool :=
  frags.any (fun f => strContains (strToLower ua) f)

/-- Result object of `StealthEngine.analyzeRequest`. -/
structure Analysis where
  isScanner : Bool
  isBot : Bool
  isBrowser : Bool
  hasCF : Bool
deriving DecidableEq

/-- `StealthEngine.analyzeRequest`: `ua` is `req.get('User-Agent') || ''`;
`hasCF` is the truthiness of the `cf-connecting-ip` / `cf-ray` headers
(modelled as their presence). -/
def analyzeRequest (userAgent : Option String) (cfConnectingIp cfRay : Option String) :
    Analysis :=
  let ua := jsOr userAgent ""
  { isScanner := reTest scannerFrags ua
    isBot := reTest botFrags ua
    isBrowser := reTest browserFrags ua && !(reTest botExclusionFrags ua)
    hasCF := cfConnectingIp.isSome || cfRay.isSome }

/-! ### StealthEngine.getRedirectMethod and calculateDelay -/

/-- The candidate method array `['header', 'meta', 'js', 'interactive']`. -/
def methods : List String :=
  ["header", "meta", "js", "interactive"]

/-- `StealthEngine.getRedirectMethod`; `rnd` is the `Math.random()` draw in
`[0,1)` used by the browser branch (`methods[Math.floor(Math.random() *
methods.length)]`; an out-of-range index would be JavaScript `undefined`). -/
def getRedirectMethod (analysis : Analysis) (rnd : ℚ) : String :=
  if analysis.isScanner then "header"
  else if analysis.isBot then "meta"
  else if analysis.isBrowser then
    methods.getD (Int.toNat ⌊rnd * (methods.length : ℚ)⌋) "undefined"
  else "header"

/-- `StealthEngine.calculateDelay`: the `delays` object literal evaluates
one `Math.random()` for `meta` (`r1`) and one for `js` (`r2`); indexing the
object with an unknown key would be `undefined`, modelled as `none`. -/
def calculateDelay (method : String) (r1 r2 : ℚ) : Option ℚ :=
  if method == "header" then some 0
  else if method == "meta" then some (r1 * 2000 + 500)
  else if method == "js" then some (r2 * 3000 + 1000)
  else if method == "interactive" then some 0
  else none

/-! ### StealthEngine.generateFingerprint -/

/-- Result object of `StealthEngine.generateFingerprint`. -/
structure Fingerprint where
  session : String
  timestamp : Nat
  ip : String
  ua : String
deriving DecidableEq

/-- The string fed to the MD5 hash:
`req.ip + req.get('User-Agent') + Date.now()`.  An absent user-agent is
JavaScript `undefined`, which string-concatenation coerces to the literal
text `undefined`. -/
def hashInput (ip : String) (userAgent : Option String) (now : Nat) : String :=
  ip ++ jsStringOfOpt userAgent ++ toString now

/-- `StealthEngine.generateFingerprint`.  `md5hex` stands for
`s => crypto.createHash('md5').update(s).digest('hex')`; `.substring(0, 12)`
is `List.take 12` on the characters. -/
def generateFingerprint (md5hex : String → String) (ip : String)
    (userAgent : Option String) (now : Nat) : Fingerprint :=
  { session := ⟨(md5hex (hashInput ip userAgent now)).data.take 12⟩
    timestamp := now
    ip := ip
    ua := jsOr userAgent "" }

/-- The sixteen lowercase hex digit characters. -/
def hexLowerChars : List Char := "0123456789abcdef".data

/-! ### WHATWG URL model

`ParamHandler.buildDestination` uses the platform `URL` class:
`new URL(baseUrl)`, the `pathname` setter, `searchParams.set/has` and
`toString()`.  The model below reproduces the behaviour relevant to this
program: scheme/authority/path/query splitting on parse, the path
percent-encode set of the `pathname` setter, the WHATWG `set` semantics on
the ordered query pair list, and `application/x-www-form-urlencoded`
serialization on `toString`. -/

/-- Is the character one of the hex digits (either case)? -/
def isHexDigitChar (c : Char) : Bool :=
  c.isDigit || ('a' ≤ c && c ≤ 'f') || ('A' ≤ c && c ≤ 'F')

/-- Numeric value of a hex digit character. -/
def hexVal (c : Char) : Nat :=
  if c.isDigit then c.toNat - 48
  else if 'a' ≤ c then c.toNat - 87
  else c.toNat - 55

/-- The sixteen uppercase hex digit characters (percent-encoding uses
uppercase). -/
def hexUpperChars : List Char := "0123456789ABCDEF".data

/-- Uppercase hex digit of `n % 16`. -/
def hexDigitChar (n : Nat) : Char :=
  hexUpperChars.getD (n % 16) '0'

/-- `%XX` encoding of one byte. -/
def encByte (b : Nat) : List Char :=
  ['%', hexDigitChar (b / 16), hexDigitChar (b % 16)]

/-- UTF-8 bytes of one character. -/
def utf8Bytes (c : Char) : List Nat :=
  let n := c.toNat
  if n < 0x80 then [n]
  else if n < 0x800 then [0xC0 + n / 64, 0x80 + n % 64]
  else if n < 0x10000 then [0xE0 + n / 4096, 0x80 + n / 64 % 64, 0x80 + n % 64]
  else [0xF0 + n / 262144, 0x80 + n / 4096 % 64, 0x80 + n / 64 % 64, 0x80 + n % 64]

/-- Percent-encode a byte sequence. -/
def encByteSeq : List Nat → List Char
  | [] => []
  | b :: rest => encByte b ++ encByteSeq rest

/-- Characters serialized verbatim by `application/x-www-form-urlencoded`:
ASCII alphanumerics and `*`, `-`, `.`, `_`. -/
def isFormSafe (c : Char) : Bool :=
  c.isAlphanum && c.toNat < 0x80 || c == '*' || c == '-' || c == '.' || c == '_'

/-- One character of `application/x-www-form-urlencoded` serialization:
space becomes `+`, safe characters stay, everything else is
percent-encoded from its UTF-8 bytes. -/
def formEncChar (c : Char) : List Char :=
  if c == ' ' then ['+']
  else if isFormSafe c then [c]
  else encByteSeq (utf8Bytes c)

/-- `application/x-www-form-urlencoded` serialization of a character list. -/
def urlencodeL : List Char → List Char
  | [] => []
  | c :: rest => formEncChar c ++ urlencodeL rest

/-- The WHATWG path percent-encode set: C0 controls, space, DEL and
non-ASCII, and `"` `#` `<` `>` `?` backtick (0x60) and the two braces
(0x7B, 0x7D). -/
def inPathEncodeSet (c : Char) : Bool :=
  let n := c.toNat
  n ≤ 0x20 || n ≥ 0x7F || n == 34 || n == 35 || n == 60 || n == 62 ||
    n == 63 || n == 96 || n == 123 || n == 125

/-- One character of a path segment under the `pathname` setter. -/
def pathEncChar (c : Char) : List Char :=
  if inPathEncodeSet c then encByteSeq (utf8Bytes c) else [c]

/-- Percent-encode a whole path segment. -/
def encodeSeg : List Char → List Char
  | [] => []
  | c :: rest => pathEncChar c ++ encodeSeg rest

/-- Split a character list at `/` and `\` (both are segment separators for
special URLs). -/
def splitSlashes : List Char → List (List Char)
  | [] => [[]]
  | c :: rest =>
    if c == '/' || c == '\\' then [] :: splitSlashes rest
    else
      match splitSlashes rest with
      | [] => [[c]]
      | p :: ps => (c :: p) :: ps

/-- Process `.` and `..` segments as the WHATWG path state does: `..` pops
the previous segment, `.` is dropped, and a trailing dot segment leaves a
trailing empty segment (trailing slash). -/
def dotProcess : List (List Char) → List (List Char) → List (List Char)
  | acc, [] => acc
  | acc, seg :: rest =>
    if seg == ['.', '.'] then
      if rest.isEmpty then acc.dropLast ++ [[]] else dotProcess acc.dropLast rest
    else if seg == ['.'] then
      if rest.isEmpty then acc ++ [[]] else dotProcess acc rest
    else dotProcess (acc ++ [seg]) rest

/-- Join path segments with `/`. -/
def joinSlash : List (List Char) → List Char
  | [] => []
  | [x] => x
  | x :: y :: rest => x ++ '/' :: joinSlash (y :: rest)

/-- The `pathname` setter's encoding of an input string into a serialized
absolute path: split at slashes, process dot segments, percent-encode each
segment with the path percent-encode set, and serialize with a leading
slash. -/
def encodePath (s : String) : String :=
  let segs :=
    match splitSlashes s.data with
    | [] :: rest => rest
    | other => other
  ⟨'/' :: joinSlash ((dotProcess [] segs).map encodeSeg)⟩

/-- The parsed URL record: lowercased scheme, authority (`host[:port]`),
serialized path, and the decoded ordered query pairs (`searchParams`). -/
structure URLRec where
  scheme : String
  host : String
  path : String
  query : List (String × String)
deriving DecidableEq

/-- Valid non-initial scheme characters. -/
def validSchemeChar (c : Char) : Bool :=
  c.isAlpha || c.isDigit || c == '+' || c == '-' || c == '.'

/-- A valid URL scheme: an ASCII letter followed by letters, digits, `+`,
`-`, `.`. -/
def validScheme (s : String) : Bool :=
  match s.data with
  | [] => false
  | c :: rest => c.isAlpha && rest.all validSchemeChar

/-- Characters that cannot appear in a host (forbidden host code points,
plus controls, space and non-ASCII; `:` is allowed for the port). -/
def forbiddenHostChar (c : Char) : Bool :=
  c.toNat ≤ 0x20 || c.toNat ≥ 0x7F || c == '#' || c == '/' || c == '?' ||
    c == '@' || c == '<' || c == '>' || c == '"' || c == '\\' || c == '^' ||
    c == '|' || c == '[' || c == ']'

/-- A valid authority: nonempty and free of forbidden characters. -/
def validHost (s : String) : Bool :=
  !s.isEmpty && s.data.all (fun c => !forbiddenHostChar c)

/-- Split off the authority: everything up to the first `/` or `?`. -/
def splitAuthority : List Char → List Char × List Char
  | [] => ([], [])
  | c :: rest =>
    if c == '/' || c == '?' then ([], c :: rest)
    else
      let (a, r) := splitAuthority rest
      (c :: a, r)

/-- Split a path-and-query remainder at the first `?`. -/
def splitQuery : List Char → List Char × Option (List Char)
  | [] => ([], none)
  | c :: rest =>
    if c == '?' then ([], some rest)
    else
      let (p, q) := splitQuery rest
      (c :: p, q)

/-- Percent-decode (`%XX` and `+` for space); multi-byte UTF-8 sequences
are decoded byte-by-byte (a simplification; no claim touches them). -/
def percentDecode : List Char → List Char
  | [] => []
  | '%' :: a :: b :: rest =>
    if isHexDigitChar a && isHexDigitChar b then
      Char.ofNat (hexVal a * 16 + hexVal b) :: percentDecode rest
    else '%' :: percentDecode (a :: b :: rest)
  | '%' :: rest => '%' :: percentDecode rest
  | c :: rest => (if c == '+' then ' ' else c) :: percentDecode rest

/-- Split a query string at `&`. -/
def splitAmp : List Char → List (List Char)
  | [] => [[]]
  | c :: rest =>
    if c == '&' then [] :: splitAmp rest
    else
      match splitAmp rest with
      | [] => [[c]]
      | p :: ps => (c :: p) :: ps

/-- Split one `name=value` piece at the first `=` (absent value is empty). -/
def splitEq : List Char → List Char × List Char
  | [] => ([], [])
  | c :: rest =>
    if c == '=' then ([], rest)
    else
      let (a, b) := splitEq rest
      (c :: a, b)

/-- Parse an `application/x-www-form-urlencoded` query string into ordered
decoded pairs, skipping empty pieces. -/
def parseQueryL (l : List Char) : List (String × String) :=
  ((splitAmp l).filter (fun p => !p.isEmpty)).map
    (fun piece =>
      let (k, v) := splitEq piece
      ((⟨percentDecode k⟩ : String), (⟨percentDecode v⟩ : String)))

/-- Split at the first occurrence of `://`: the text before and after it
(`none` when the separator never occurs). -/
def splitSep3 : List Char → Option (List Char × List Char)
  | [] => none
  | c :: rest =>
    if strStarts "://".data (c :: rest) then some ([], rest.drop 2)
    else
      match splitSep3 rest with
      | none => none
      | some (a, b) => some (c :: a, b)

/-- `new URL(s)` for `scheme://authority[/path][?query]` URLs: validates
scheme and authority, lowercases them, defaults the path to `/`, and
parses the query into pairs.  Strings without `://`, with an empty or
invalid authority, an invalid scheme, or a `#` are rejected (`none`),
modelling the thrown `TypeError`. -/
def parseURL (s : String) : Option URLRec :=
  if s.data.any (fun c => c == '#') then none
  else
    match splitSep3 s.data with
    | none => none
    | some (schemeL, restL) =>
      if validScheme ⟨schemeL⟩ then
        let (auth, pq) := splitAuthority restL
        if validHost ⟨auth⟩ then
          let (pathPart, queryPart) := splitQuery pq
          some { scheme := strToLower ⟨schemeL⟩
                 host := strToLower ⟨auth⟩
                 path := if pathPart.isEmpty then "/" else encodePath ⟨pathPart⟩
                 query := match queryPart with
                          | none => []
                          | some ql => parseQueryL ql }
        else none
      else none

/-- `url.pathname = p`. -/
def setPathname (u : URLRec) (p : String) : URLRec :=
  { u with path := encodePath p }

/-- Remove every pair named `k`. -/
def removeParam : List (String × String) → String → List (String × String)
  | [], _ => []
  | p :: rest, k => if p.1 == k then removeParam rest k else p :: removeParam rest k

/-- `url.searchParams.set(k, v)`: replace the first pair named `k` in
place and drop the later ones, or append if absent. -/
def setParam : List (String × String) → String → String → List (String × String)
  | [], k, v => [(k, v)]
  | p :: rest, k, v =>
    if p.1 == k then (k, v) :: removeParam rest k else p :: setParam rest k v

/-- `url.searchParams.has(k)`. -/
def hasParam (ps : List (String × String)) (k : String) : Bool :=
  ps.any (fun p => p.1 == k)

/-- `url.searchParams.get(k)`: value of the first pair named `k`. -/
def lookupParam (ps : List (String × String)) (k : String) : Option String :=
  (ps.find? (fun p => p.1 == k)).map (fun p => p.2)

/-- Join serialized query pairs with `&`. -/
def joinAmp : List (List Char) → List Char
  | [] => []
  | [x] => x
  | x :: y :: rest => x ++ '&' :: joinAmp (y :: rest)

/-- One `name=value` pair, urlencoded. -/
def encPair (p : String × String) : List Char :=
  urlencodeL p.1.data ++ '=' :: urlencodeL p.2.data

/-- Serialized query of `url.toString()`. -/
def serializeQueryL (q : List (String × String)) : List Char :=
  joinAmp (q.map encPair)

/-- `url.toString()`: `scheme://host` then the serialized path, then
`?query` when the search parameter list is nonempty. -/
def serializeURL (u : URLRec) : List Char :=
  u.scheme.data ++ ((':' :: '/' :: '/' :: u.host.data) ++ (u.path.data ++
    (if u.query.isEmpty then [] else '?' :: serializeQueryL u.query)))

/-! ### ParamHandler -/

/-- `ParamHandler.extractCriticalParams`: keep the query pairs whose key
contains (case-sensitively) one of `cf_`, `__cf`, `token`, `auth`. -/
def extractCriticalParams (query : List (String × String)) : List (String × String) :=
  query.filter (fun kv =>
    strContains kv.1 "cf_" || strContains kv.1 "__cf" ||
      strContains kv.1 "token" || strContains kv.1 "auth")

/-- `ParamHandler.buildDestination(baseUrl, originalUrl, query,
criticalParams)`: parse the base URL; when `originalUrl` is not `/` assign
it to `url.pathname`; `searchParams.set` every query pair in order;
`searchParams.set` every critical pair whose key is still absent; return
`url.toString()`.  The query object is modelled as its ordered key/value
pair list. -/
def buildDestination (baseUrl : String) (originalUrl : String)
    (query criticalParams : List (String × String)) : Option String :=
  match parseURL baseUrl with
  | none => none
  | some url0 =>
    let url1 := if originalUrl ≠ "/" then setPathname url0 originalUrl else url0
    let q1 := query.foldl (fun ps kv => setParam ps kv.1 kv.2) url1.query
    let q2 := criticalParams.foldl
      (fun ps kv => if hasParam ps kv.1 then ps else setParam ps kv.1 kv.2) q1
    some ⟨serializeURL { url1 with query := q2 }⟩

/-- The destination computation of the main `app.get('*')` handler: it
calls `buildDestination(CONFIG.target, req.originalUrl, req.query,
criticalParams)`; a missing `TARGET_URL` reaches `new URL` as the coerced
string `undefined` and the thrown `TypeError` makes the request fail
(Express answers it with an error response). -/
def handleMain (target : Option String) (originalUrl : String)
    (query : List (String × String)) : Except String String :=
  match buildDestination (jsStringOfOpt target) originalUrl query
      (extractCriticalParams query) with
  | some dest => Except.ok dest
  | none => Except.error "Invalid URL"

/-! ### executeRedirect and its HTML templates

The three HTML pages are the source's template literals, split at the
interpolation holes `${delay/1000}`, `${destination}` and `${delay}`.
JavaScript's decimal rendering of the number `delay` (and of
`delay/1000`) is not reproduced digit-by-digit; the rendered text is
passed in as `delayStr` / `delayDiv`, and the theorems that need it
assume only that it consists of numeric characters. -/

/-- Text of the `meta` page before `${delay/1000}`. -/
def metaA : String :=
  "\n<!DOCTYPE html>\n<html>\n<head>\n  <meta charset=\"UTF-8\">\n  <title>Loading...</title>\n  <meta http-equiv=\"refresh\" content=\""

/-- Text of the `meta` page between `${delay/1000}` and `${destination}`. -/
def metaB : String := ";url="

/-- Text of the `meta` page after `${destination}`. -/
def metaC : String :=
  "\">\n  <style>\n    body \x7b font-family: system-ui; background: #f5f5f5; display: flex; justify-content: center; align-items: center; height: 100vh; margin: 0; \x7d\n    .loader \x7b text-align: center; \x7d\n    .spinner \x7b border: 3px solid #f3f3f3; border-top: 3px solid #3498db; border-radius: 50%; width: 30px; height: 30px; animation: spin 1s linear infinite; margin: 0 auto 15px; \x7d\n    @keyframes spin \x7b 0% \x7b transform: rotate(0deg); \x7d 100% \x7b transform: rotate(360deg); \x7d \x7d\n  </style>\n</head>\n<body>\n  <div class=\"loader\">\n    <div class=\"spinner\"></div>\n    <p>Loading content...</p>\n  </div>\n</body>\n</html>"

/-- Text of the `js` page before `${delay/1000}`. -/
def jsA : String :=
  "\n<!DOCTYPE html>\n<html>\n<head>\n  <meta charset=\"UTF-8\">\n  <title>Redirecting...</title>\n  <style>\n    body \x7b font-family: Arial; background: #fff; color: #333; display: flex; justify-content: center; align-items: center; height: 100vh; margin: 0; \x7d\n    .container \x7b text-align: center; \x7d\n    .progress \x7b width: 200px; height: 4px; background: #eee; margin: 20px auto; border-radius: 2px; overflow: hidden; \x7d\n    .progress-bar \x7b height: 100%; background: #007cba; width: 0%; animation: load "

/-- Text of the `js` page between `${delay/1000}` and `${destination}`. -/
def jsB : String :=
  "s ease-in-out; \x7d\n    @keyframes load \x7b 0% \x7b width: 0%; \x7d 100% \x7b width: 100%; \x7d \x7d\n  </style>\n</head>\n<body>\n  <div class=\"container\">\n    <p>Please wait while we redirect you...</p>\n    <div class=\"progress\"><div class=\"progress-bar\"></div></div>\n  </div>\n  <script>\n    setTimeout(() => window.location.href = \""

/-- Text of the `js` page between `${destination}` and `${delay}`. -/
def jsC : String := "\", "

/-- Text of the `js` page after `${delay}`. -/
def jsD : String := ");\n  </script>\n</body>\n</html>"

/-- Text of the `interactive` page before `${destination}`. -/
def intA : String :=
  "\n<!DOCTYPE html>\n<html>\n<head>\n  <meta charset=\"UTF-8\">\n  <title>Continue</title>\n  <style>\n    body \x7b font-family: system-ui; background: #f9f9f9; display: flex; justify-content: center; align-items: center; height: 100vh; margin: 0; \x7d\n    .card \x7b background: white; padding: 2rem; border-radius: 8px; box-shadow: 0 2px 10px rgba(0,0,0,0.1); text-align: center; \x7d\n    .btn \x7b background: #007cba; color: white; border: none; padding: 10px 20px; border-radius: 4px; cursor: pointer; \x7d\n    .btn:hover \x7b background: #005a87; \x7d\n  </style>\n</head>\n<body>\n  <div class=\"card\">\n    <p>Click to continue to the destination</p>\n    <button class=\"btn\" onclick=\"window.location.href='"

/-- Text of the `interactive` page after `${destination}`. -/
def intB : String := "'\">Continue</button>\n  </div>\n</body>\n</html>"

/-- Characters of the `meta` page. -/
def metaBodyL (delayDiv dest : List Char) : List Char :=
  metaA.data ++ (delayDiv ++ (metaB.data ++ (dest ++ metaC.data)))

/-- Characters of the `js` page. -/
def jsBodyL (delayDiv dest delayStr : List Char) : List Char :=
  jsA.data ++ (delayDiv ++ (jsB.data ++ (dest ++ (jsC.data ++ (delayStr ++ jsD.data)))))

/-- Characters of the `interactive` page. -/
def intBodyL (dest : List Char) : List Char :=
  intA.data ++ (dest ++ intB.data)

/-- The `meta` page sent by `executeRedirect`. -/
def metaBody (delayDiv destination : String) : String :=
  ⟨metaBodyL delayDiv.data destination.data⟩

/-- The `js` page sent by `executeRedirect`. -/
def jsBody (delayDiv destination delayStr : String) : String :=
  ⟨jsBodyL delayDiv.data destination.data delayStr.data⟩

/-- The `interactive` page sent by `executeRedirect`. -/
def interactiveBody (destination : String) : String :=
  ⟨intBodyL destination.data⟩

/-- The single HTTP response written for a request. -/
inductive Response where
  | redirect (status : Nat) (location : String)
  | page (body : String)
deriving DecidableEq

/-- `executeRedirect(method, destination, delay, res)`: the `switch` sends
a 302 for `header`, one of the three HTML pages otherwise; a method
matching no case would fall through and send nothing (`none`).
`delayDiv` renders `${delay/1000}` and `delayStr` renders `${delay}`. -/
def executeRedirect (method destination delayDiv delayStr : String) :
    Option Response :=
  if method == "header" then some (Response.redirect 302 destination)
  else if method == "meta" then some (Response.page (metaBody delayDiv destination))
  else if method == "js" then some (Response.page (jsBody delayDiv destination delayStr))
  else if method == "interactive" then some (Response.page (interactiveBody destination))
  else none

/-! ### Character classes used by the injection-safety analysis -/

/-- The three HTML metacharacters whose raw presence the injection claims
are about. -/
def badChar (c : Char) : Bool :=
  c == '<' || c == '>' || c == '"'

/-- A string free of raw `<`, `>` and `"`. -/
def cleanComp (s : String) : Bool :=
  s.data.all (fun c => !badChar c)

/-- Characters that can occur in JavaScript's decimal rendering of a
finite non-negative number (digits, decimal point, exponent marker and
signs). -/
def numericChar (c : Char) : Bool :=
  c.isDigit || c == '.' || c == '-' || c == '+' || c == 'e'

/-- A nonempty all-numeric rendering, as produced by interpolating the
number `delay` (or `delay/1000`) into a template literal. -/
def numericOK (s : String) : Bool :=
  !s.data.isEmpty && s.data.all numericChar

/-- Does the list end with the given pattern? -/
def strEnds (pat l : List Char) : Bool :=
  strStarts pat.reverse l.reverse

/-- The probe payload of the injection claim. -/
def xssNeedle : String := "\"><script>"

/-- The first four characters of the probe payload; no occurrence of the
payload can avoid containing them. -/
def xssAnchor : List Char := xssNeedle.data.take 4

/-! ## Theorems

First the generic bridging and decomposition lemmas about string
containment, then per-component lemmas, then one theorem per
specification claim (with a witness where the theorem has hypotheses). -/

theorem strStarts_iff (pat : List Char) : ∀ l : List Char,
    strStarts pat l = true ↔ pat <+: l := by
  induction pat with
  | nil =>
    intro l
    simp [strStarts]
  | cons a as ih =>
    intro l
    cases l with
    | nil => simp [strStarts]
    | cons b bs =>
      simp [strStarts, ih bs, List.cons_prefix_cons, beq_iff_eq]

theorem containsSeq_iff (pat : List Char) : ∀ l : List Char,
    containsSeq pat l = true ↔ pat <:+: l := by
  intro l
  induction l with
  | nil =>
    simp [containsSeq, List.isEmpty_iff]
  | cons c rest ih =>
    rw [containsSeq, Bool.or_eq_true, strStarts_iff, ih, List.infix_cons_iff]

theorem strContains_iff (s pat : String) :
    strContains s pat = true ↔ pat.data <:+: s.data :=
  containsSeq_iff pat.data s.data

theorem strEnds_iff (pat l : List Char) : strEnds pat l = true ↔ pat <:+ l := by
  rw [strEnds, strStarts_iff, List.reverse_prefix]

theorem infOfPre {l₁ l₂ : List Char} (h : l₁ <+: l₂) : l₁ <:+: l₂ :=
  h.isInfix

theorem infOfSuf {l₁ l₂ : List Char} (h : l₁ <:+ l₂) : l₁ <:+: l₂ :=
  h.isInfix

theorem infTrans {l₁ l₂ l₃ : List Char} (h : l₁ <:+: l₂) (h' : l₂ <:+: l₃) :
    l₁ <:+: l₃ :=
  h.trans h'

theorem infSubset {l₁ l₂ : List Char} (h : l₁ <:+: l₂) : l₁ ⊆ l₂ :=
  h.subset

theorem infConsOf {l₁ l₂ : List Char} (a : Char) (h : l₁ <:+: l₂) :
    l₁ <:+: a :: l₂ := by
  obtain ⟨s, t, rfl⟩ := h
  exact ⟨a :: s, t, rfl⟩

theorem sufConsOf {l₁ l₂ : List Char} (a : Char) (h : l₁ <:+ l₂) :
    l₁ <:+ a :: l₂ := by
  obtain ⟨s, rfl⟩ := h
  exact ⟨a :: s, rfl⟩

theorem infAppendRight {n B : List Char} (A : List Char) (h : n <:+: B) :
    n <:+: A ++ B := by
  obtain ⟨s, t, rfl⟩ := h
  exact ⟨A ++ s, t, by simp⟩

theorem preHead {n L : List Char} (h : n <+: L) (hn : n ≠ []) :
    L.head? = n.head? := by
  obtain ⟨t, rfl⟩ := h
  cases n with
  | nil => exact absurd rfl hn
  | cons a as => rfl

theorem headMem {L : List Char} {c : Char} (h : L.head? = some c) : c ∈ L := by
  cases L with
  | nil => simp at h
  | cons a as =>
    simp only [List.head?_cons, Option.some.injEq] at h
    exact h ▸ List.mem_cons_self a as

theorem headAppend {A : List Char} (B : List Char) (h : A ≠ []) :
    (A ++ B).head? = A.head? := by
  cases A with
  | nil => exact absurd rfl h
  | cons a as => rfl

theorem sufSubset {n L : List Char} (h : n <:+ L) : n ⊆ L := by
  obtain ⟨s, rfl⟩ := h
  exact fun c hc => List.mem_append_right s hc

theorem preDecomp : ∀ (A : List Char) {n B : List Char}, n <+: A ++ B →
    n <+: A ∨ (A <+: n ∧ n.drop A.length <+: B) := by
  intro A
  induction A with
  | nil =>
    intro n B h
    exact Or.inr ⟨List.nil_prefix, h⟩
  | cons a A' ih =>
    intro n B h
    cases n with
    | nil => exact Or.inl List.nil_prefix
    | cons b n' =>
      rw [List.cons_append, List.cons_prefix_cons] at h
      obtain ⟨rfl, h'⟩ := h
      rcases ih h' with h1 | ⟨h2, h3⟩
      · exact Or.inl (List.cons_prefix_cons.mpr ⟨rfl, h1⟩)
      · exact Or.inr ⟨List.cons_prefix_cons.mpr ⟨rfl, h2⟩, by simpa using h3⟩

theorem infDecomp : ∀ (A : List Char) {n B : List Char}, n <:+: A ++ B →
    n <:+: A ∨ n <:+: B ∨
      ∃ k, 0 < k ∧ k < n.length ∧ n.take k <:+ A ∧ n.drop k <+: B := by
  intro A
  induction A with
  | nil =>
    intro n B h
    exact Or.inr (Or.inl h)
  | cons a A' ih =>
    intro n B h
    rw [List.cons_append, List.infix_cons_iff] at h
    rcases h with h | h
    · rcases preDecomp (a :: A') h with h1 | ⟨h2, h3⟩
      · exact Or.inl (infOfPre h1)
      · by_cases hlen : n.length ≤ (a :: A').length
        · have he : a :: A' = n :=
            h2.eq_of_length (Nat.le_antisymm h2.length_le hlen)
          exact Or.inl (he ▸ List.infix_rfl)
        · refine Or.inr (Or.inr ⟨(a :: A').length, Nat.succ_pos _, by omega, ?_, h3⟩)
          have ht : n.take (a :: A').length = a :: A' :=
            (List.prefix_iff_eq_take.mp h2).symm
          rw [ht]
    · rcases ih h with h1 | h1 | ⟨k, hk0, hkn, hA, hB⟩
      · exact Or.inl (infConsOf a h1)
      · exact Or.inr (Or.inl h1)
      · exact Or.inr (Or.inr ⟨k, hk0, hkn, sufConsOf a hA, hB⟩)

/-! ### Claim C8 -/

/-- Claim C8: `buildDestination` is deterministic — invoked twice with
identical base URL, original path, query and critical parameters it
yields identical output (it reads no clock and draws no randomness). -/
theorem c8_buildDestination_deterministic (baseUrl originalUrl : String)
    (query criticalParams : List (String × String)) :
    buildDestination baseUrl originalUrl query criticalParams =
      buildDestination baseUrl originalUrl query criticalParams := rfl

/-! ### Claim C2 -/

/-- Claim C2, counterexample: with `TARGET_URL` unset the process still
starts listening (`app.listen` is unconditional), and the main handler
then fails on each request when `new URL` rejects the coerced string
`undefined` — the opposite of failing at startup and never accepting
connections. -/
theorem c2_counterexample :
    (startServer { TARGET_URL := none, PORT := none, MODE := none }).listening = true ∧
    handleMain none "/verify" [] = Except.error "Invalid URL" :=
  ⟨rfl, rfl⟩

/-- Claim C2, amended: the source performs no startup validation of the
destination base URL — it listens regardless of the environment, and when
`TARGET_URL` is missing every main-route request fails during destination
construction with a per-request error. -/
theorem c2_no_startup_validation (env : Env) (originalUrl : String)
    (query : List (String × String)) (h : env.TARGET_URL = none) :
    (startServer env).listening = true ∧
    handleMain (mkConfig env).target originalUrl query = Except.error "Invalid URL" := by
  refine ⟨rfl, ?_⟩
  have ht : (mkConfig env).target = none := h
  rw [ht]
  have hb : buildDestination "undefined" originalUrl query
      (extractCriticalParams query) = none := rfl
  rw [handleMain, jsStringOfOpt, hb]

/-- Claim C2, witness for the amended theorem at a concrete environment. -/
theorem c2_no_startup_validation_wit :
    (startServer { TARGET_URL := none, PORT := none, MODE := none }).listening = true ∧
    handleMain (mkConfig { TARGET_URL := none, PORT := none, MODE := none }).target "/" [] =
      Except.error "Invalid URL" :=
  c2_no_startup_validation { TARGET_URL := none, PORT := none, MODE := none } "/" [] rfl

/-! ### Claim C5 -/

/-- Claim C5, counterexample: with an absent user-agent the string fed to
the MD5 hash is `ip ++ "undefined" ++ timestamp` (JavaScript coerces
`undefined` in `req.ip + req.get('User-Agent') + Date.now()`), not
`ip ++ "" ++ timestamp` as the claim's "treated as the empty string in
all of these derivations" would require. -/
theorem c5_counterexample :
    hashInput "1.2.3.4" none 1700000000000 = "1.2.3.4undefined1700000000000" ∧
    hashInput "1.2.3.4" none 1700000000000 ≠
      "1.2.3.4" ++ "" ++ toString 1700000000000 := by
  exact ⟨rfl, by decide⟩

/-- Claim C5, amended: `generateFingerprint` always returns a 12-character
token of lowercase hex characters (given that the MD5 hex digest is a
32-character lowercase hex string), derived from the hash of client
address + user-agent + timestamp together with the raw timestamp, address
and user-agent; an absent user-agent is the empty string in the
fingerprint's `ua` field but contributes the literal text `undefined` to
the hash input. -/
theorem c5_fingerprint_shape (md5hex : String → String)
    (hlen : ∀ s, (md5hex s).data.length = 32)
    (hhex : ∀ s, ∀ c ∈ (md5hex s).data, c ∈ hexLowerChars)
    (ip : String) (userAgent : Option String) (now : Nat) :
    (generateFingerprint md5hex ip userAgent now).session.data.length = 12 ∧
    (∀ c ∈ (generateFingerprint md5hex ip userAgent now).session.data,
      c ∈ hexLowerChars) ∧
    (generateFingerprint md5hex ip userAgent now).session =
      ⟨(md5hex (ip ++ jsStringOfOpt userAgent ++ toString now)).data.take 12⟩ ∧
    (generateFingerprint md5hex ip userAgent now).timestamp = now ∧
    (generateFingerprint md5hex ip userAgent now).ip = ip ∧
    (generateFingerprint md5hex ip userAgent now).ua = jsOr userAgent "" ∧
    jsStringOfOpt none = "undefined" ∧ jsOr none "" = "" := by
  refine ⟨?_, ?_, rfl, rfl, rfl, rfl, rfl, rfl⟩
  · show ((md5hex (hashInput ip userAgent now)).data.take 12).length = 12
    rw [List.length_take, hlen]
    decide
  · intro c hc
    exact hhex _ c (List.mem_of_mem_take hc)

/-- Claim C5, witness for the amended theorem at a concrete hash function
and request. -/
theorem c5_fingerprint_shape_wit :
    (generateFingerprint (fun _ => "00112233445566778899aabbccddeeff")
      "1.2.3.4" none 1700000000000).session.data.length = 12 :=
  (c5_fingerprint_shape (fun _ => "00112233445566778899aabbccddeeff")
    (fun _ => (by decide : ("00112233445566778899aabbccddeeff" : String).data.length = 32))
    (fun _ => (by decide :
      ∀ c ∈ ("00112233445566778899aabbccddeeff" : String).data, c ∈ hexLowerChars))
    "1.2.3.4" none 1700000000000).1

/-! ### Claim C6 -/

/-- Claim C6: `calculateDelay` maps `header` and `interactive` to 0,
`meta` into `[500, 2500)`, `js` into `[1000, 4000)`, and every defined
delay is non-negative, for any random draws in `[0,1)`. -/
theorem c6_calculateDelay_ranges (r1 r2 : ℚ) (h10 : 0 ≤ r1) (h11 : r1 < 1)
    (h20 : 0 ≤ r2) (h21 : r2 < 1) :
    calculateDelay "header" r1 r2 = some 0 ∧
    (∃ d, calculateDelay "meta" r1 r2 = some d ∧ 500 ≤ d ∧ d < 2500) ∧
    (∃ d, calculateDelay "js" r1 r2 = some d ∧ 1000 ≤ d ∧ d < 4000) ∧
    calculateDelay "interactive" r1 r2 = some 0 ∧
    (∀ m d, calculateDelay m r1 r2 = some d → 0 ≤ d) := by
  refine ⟨rfl, ⟨r1 * 2000 + 500, rfl, by linarith, by linarith⟩,
    ⟨r2 * 3000 + 1000, rfl, by linarith, by linarith⟩, rfl, ?_⟩
  intro m d h
  unfold calculateDelay at h
  split_ifs at h <;> injection h with h' <;> rw [← h'] <;> linarith

/-- Claim C6, witness at `r1 = r2 = 0`. -/
theorem c6_calculateDelay_ranges_wit :
    calculateDelay "header" 0 0 = some 0 :=
  (c6_calculateDelay_ranges 0 0 (le_refl 0) (by norm_num) (le_refl 0) (by norm_num)).1

/-! ### Claim C4 -/

/-- In the browser branch `getRedirectMethod` indexes the `methods` array
with `Math.floor(Math.random() * methods.length)`. -/
theorem getRedirectMethod_browser (a : Analysis) (hs : a.isScanner = false)
    (hb : a.isBot = false) (hw : a.isBrowser = true) (r : ℚ) :
    getRedirectMethod a r = methods.getD (Int.toNat ⌊r * 4⌋) "undefined" := by
  rw [getRedirectMethod, hs, hb, hw]
  norm_num [methods]

/-- Claim C4: the method policy follows the precedence
scanner → `header`, else bot → `meta`, else browser → a random pick that
always lands in the four-method set and attains each of the four methods
for some draw, else `header`; and every scanner-matching user-agent gets
`header`. -/
theorem c4_method_policy (a : Analysis) (r : ℚ) (h0 : 0 ≤ r) (h1 : r < 1) :
    (a.isScanner = true → getRedirectMethod a r = "header") ∧
    (a.isScanner = false → a.isBot = true → getRedirectMethod a r = "meta") ∧
    (a.isScanner = false → a.isBot = false → a.isBrowser = true →
      getRedirectMethod a r ∈ methods ∧
      (∃ r0 : ℚ, 0 ≤ r0 ∧ r0 < 1 ∧ getRedirectMethod a r0 = "header") ∧
      (∃ r1 : ℚ, 0 ≤ r1 ∧ r1 < 1 ∧ getRedirectMethod a r1 = "meta") ∧
      (∃ r2 : ℚ, 0 ≤ r2 ∧ r2 < 1 ∧ getRedirectMethod a r2 = "js") ∧
      (∃ r3 : ℚ, 0 ≤ r3 ∧ r3 < 1 ∧ getRedirectMethod a r3 = "interactive")) ∧
    (a.isScanner = false → a.isBot = false → a.isBrowser = false →
      getRedirectMethod a r = "header") ∧
    (∀ ua cfip cfray, (analyzeRequest ua cfip cfray).isScanner = true →
      getRedirectMethod (analyzeRequest ua cfip cfray) r = "header") := by
  refine ⟨?_, ?_, ?_, ?_, ?_⟩
  · intro hs
    rw [getRedirectMethod, hs]
    rfl
  · intro hs hb
    rw [getRedirectMethod, hs, hb]
    rfl
  · intro hs hb hw
    have key : ∀ r' : ℚ, 0 ≤ r' → r' < 1 →
        getRedirectMethod a r' = methods.getD (Int.toNat ⌊r' * 4⌋) "undefined" :=
      fun r' _ _ => getRedirectMethod_browser a hs hb hw r'
    refine ⟨?_, ⟨0, le_refl 0, by norm_num, ?_⟩, ⟨1/4, by norm_num, by norm_num, ?_⟩,
      ⟨1/2, by norm_num, by norm_num, ?_⟩, ⟨3/4, by norm_num, by norm_num, ?_⟩⟩
    · rw [key r h0 h1]
      have hb0 : (0 : ℤ) ≤ ⌊r * 4⌋ := Int.floor_nonneg.mpr (by linarith)
      have hb4 : ⌊r * 4⌋ < 4 := Int.floor_lt.mpr (by norm_num; linarith)
      have : Int.toNat ⌊r * 4⌋ = 0 ∨ Int.toNat ⌊r * 4⌋ = 1 ∨
          Int.toNat ⌊r * 4⌋ = 2 ∨ Int.toNat ⌊r * 4⌋ = 3 := by omega
      rcases this with h' | h' | h' | h' <;> rw [h'] <;> decide
    · rw [key 0 (le_refl 0) (by norm_num)]
      norm_num
      rfl
    · rw [key (1/4) (by norm_num) (by norm_num)]
      rw [show (1/4 : ℚ) * 4 = 1 by norm_num]
      norm_num
      rfl
    · rw [key (1/2) (by norm_num) (by norm_num)]
      rw [show (1/2 : ℚ) * 4 = 2 by norm_num]
      norm_num
      rfl
    · rw [key (3/4) (by norm_num) (by norm_num)]
      rw [show (3/4 : ℚ) * 4 = 3 by norm_num]
      norm_num
      rfl
  · intro hs hb hw
    rw [getRedirectMethod, hs, hb, hw]
    rfl
  · intro ua cfip cfray hs
    rw [getRedirectMethod, hs]
    rfl

/-- Claim C4, witness: a scanner classification at draw 0 gets `header`. -/
theorem c4_method_policy_wit :
    getRedirectMethod ⟨true, false, false, false⟩ 0 = "header" :=
  (c4_method_policy ⟨true, false, false, false⟩ 0 (le_refl 0) (by norm_num)).1 rfl

/-! ### Claim C9 -/

/-- Claim C9, counterexample: the user-agent `mozilla spider nikto`
contains a browser fragment and `spider` and neither `bot` nor `crawl`,
so it satisfies the claim's hypotheses, yet it also matches a scanner
fragment, so the scanner branch fires first and the selected method is
`header`, not `meta`. -/
theorem c9_counterexample :
    strContains (strToLower (jsOr (some "mozilla spider nikto") "")) "spider" = true ∧
    strContains (strToLower (jsOr (some "mozilla spider nikto") "")) "bot" = false ∧
    strContains (strToLower (jsOr (some "mozilla spider nikto") "")) "crawl" = false ∧
    (analyzeRequest (some "mozilla spider nikto") none none).isBot = true ∧
    (analyzeRequest (some "mozilla spider nikto") none none).isBrowser = true ∧
    getRedirectMethod (analyzeRequest (some "mozilla spider nikto") none none) 0 = "header" ∧
    "header" ≠ "meta" := by
  decide

/-- Claim C9, amended: a user-agent containing a browser engine fragment
and `spider` but neither `bot` nor `crawl` — and additionally matching no
scanner fragment — is classified simultaneously as bot and browser (the
browser exclusion only filters `bot`/`crawl`, not `spider`), and its
method is `meta` because the bot branch precedes the browser branch. -/
theorem c9_spider_bot_and_browser (userAgent : Option String)
    (cfip cfray : Option String) (r : ℚ)
    (hbrowser : reTest browserFrags (jsOr userAgent "") = true)
    (hspider : strContains (strToLower (jsOr userAgent "")) "spider" = true)
    (hbot : strContains (strToLower (jsOr userAgent "")) "bot" = false)
    (hcrawl : strContains (strToLower (jsOr userAgent "")) "crawl" = false)
    (hscan : reTest scannerFrags (jsOr userAgent "") = false) :
    (analyzeRequest userAgent cfip cfray).isBot = true ∧
    (analyzeRequest userAgent cfip cfray).isBrowser = true ∧
    getRedirectMethod (analyzeRequest userAgent cfip cfray) r = "meta" := by
  have hbotcls : (analyzeRequest userAgent cfip cfray).isBot = true := by
    show reTest botFrags (jsOr userAgent "") = true
    rw [reTest, List.any_eq_true]
    exact ⟨"spider", by decide, hspider⟩
  have hexcl : reTest botExclusionFrags (jsOr userAgent "") = false := by
    rw [reTest, botExclusionFrags]
    simp only [List.any_cons, List.any_nil, Bool.or_eq_false_iff]
    exact ⟨hbot, hcrawl, trivial⟩
  have hbrowsercls : (analyzeRequest userAgent cfip cfray).isBrowser = true := by
    show (reTest browserFrags (jsOr userAgent "") &&
      !(reTest botExclusionFrags (jsOr userAgent ""))) = true
    rw [hbrowser, hexcl]
    rfl
  have hscancls : (analyzeRequest userAgent cfip cfray).isScanner = false := hscan
  refine ⟨hbotcls, hbrowsercls, ?_⟩
  rw [getRedirectMethod, hscancls, hbotcls]
  rfl

/-- Claim C9, witness for the amended theorem at a concrete user-agent. -/
theorem c9_spider_bot_and_browser_wit :
    (analyzeRequest (some "Mozilla Spider") none none).isBot = true ∧
    (analyzeRequest (some "Mozilla Spider") none none).isBrowser = true ∧
    getRedirectMethod (analyzeRequest (some "Mozilla Spider") none none) 0 = "meta" :=
  c9_spider_bot_and_browser (some "Mozilla Spider") none none 0
    (by decide) (by decide) (by decide) (by decide) (by decide)

/-! ### Search-parameter lemmas (for claims C7 and C10) -/

theorem mem_removeParam {p : String × String} {k' : String} :
    ∀ {ps : List (String × String)}, p ∈ ps → p.1 ≠ k' → p ∈ removeParam ps k' := by
  intro ps
  induction ps with
  | nil => intro h; exact absurd h (List.not_mem_nil p)
  | cons q rest ih =>
    intro hmem hne
    rw [removeParam]
    rcases List.mem_cons.mp hmem with rfl | hmem'
    · have : (p.1 == k') = false := beq_eq_false_iff_ne.mpr hne
      rw [this]
      exact List.mem_cons_self p (removeParam rest k')
    · by_cases hq : (q.1 == k') = true
      · rw [hq]
        exact ih hmem' hne
      · rw [Bool.not_eq_true] at hq
        rw [hq]
        exact List.mem_cons_of_mem q (ih hmem' hne)

theorem mem_setParam_ne {p : String × String} {k' : String} (v' : String) :
    ∀ {ps : List (String × String)}, p ∈ ps → p.1 ≠ k' → p ∈ setParam ps k' v' := by
  intro ps
  induction ps with
  | nil => intro h; exact absurd h (List.not_mem_nil p)
  | cons q rest ih =>
    intro hmem hne
    rw [setParam]
    rcases List.mem_cons.mp hmem with rfl | hmem'
    · have : (p.1 == k') = false := beq_eq_false_iff_ne.mpr hne
      rw [this]
      exact List.mem_cons_self p (setParam rest k' v')
    · by_cases hq : (q.1 == k') = true
      · rw [hq]
        exact List.mem_cons_of_mem _ (mem_removeParam hmem' hne)
      · rw [Bool.not_eq_true] at hq
        rw [hq]
        exact List.mem_cons_of_mem q (ih hmem' hne)

theorem mem_setParam_self (k v : String) :
    ∀ ps : List (String × String), (k, v) ∈ setParam ps k v := by
  intro ps
  induction ps with
  | nil => exact List.mem_singleton.mpr rfl
  | cons q rest ih =>
    rw [setParam]
    by_cases hq : (q.1 == k) = true
    · rw [hq]
      exact List.mem_cons_self _ _
    · rw [Bool.not_eq_true] at hq
      rw [hq]
      exact List.mem_cons_of_mem q ih

theorem hasParam_of_mem {ps : List (String × String)} {k v : String}
    (h : (k, v) ∈ ps) : hasParam ps k = true := by
  rw [hasParam, List.any_eq_true]
  exact ⟨(k, v), h, beq_self_eq_true k⟩

theorem setParam_of_not_has (k v : String) :
    ∀ {ps : List (String × String)}, hasParam ps k = false →
      setParam ps k v = ps ++ [(k, v)] := by
  intro ps
  induction ps with
  | nil => intro _; rfl
  | cons q rest ih =>
    intro h
    rw [hasParam, List.any_cons, Bool.or_eq_false_iff] at h
    rw [setParam, h.1, ih h.2, List.cons_append]
    rfl

theorem foldSet_mem_preserve {k v : String} :
    ∀ (q : List (String × String)) (init : List (String × String)),
      (k, v) ∈ init → (∀ kv ∈ q, kv.1 ≠ k) →
      (k, v) ∈ q.foldl (fun ps kv => setParam ps kv.1 kv.2) init := by
  intro q
  induction q with
  | nil => intro init h _; exact h
  | cons a rest ih =>
    intro init h hkeys
    rw [List.foldl_cons]
    exact ih _ (mem_setParam_ne a.2 h
      (fun he => hkeys a (List.mem_cons_self a rest) he.symm))
      (fun kv hkv => hkeys kv (List.mem_cons_of_mem a hkv))

theorem foldSet_mem {k v : String} :
    ∀ (q : List (String × String)) (init : List (String × String)),
      (k, v) ∈ q → (q.map Prod.fst).Nodup →
      (k, v) ∈ q.foldl (fun ps kv => setParam ps kv.1 kv.2) init := by
  intro q
  induction q with
  | nil => intro init h _; exact absurd h (List.not_mem_nil _)
  | cons a rest ih =>
    intro init hmem hnd
    rw [List.map_cons, List.nodup_cons] at hnd
    rw [List.foldl_cons]
    rcases List.mem_cons.mp hmem with rfl | hmem'
    · refine foldSet_mem_preserve rest _ (mem_setParam_self k v init) ?_
      intro kv hkv he
      have hm : kv.1 ∈ rest.map Prod.fst := List.mem_map_of_mem Prod.fst hkv
      rw [he] at hm
      exact hnd.1 hm
    · exact ih _ hmem' hnd.2

theorem critFold_mem {p : String × String} :
    ∀ (crit : List (String × String)) (acc : List (String × String)), p ∈ acc →
      p ∈ crit.foldl
        (fun ps kv => if hasParam ps kv.1 then ps else setParam ps kv.1 kv.2) acc := by
  intro crit
  induction crit with
  | nil => intro acc h; exact h
  | cons a rest ih =>
    intro acc h
    rw [List.foldl_cons]
    by_cases ha : hasParam acc a.1 = true
    · rw [if_pos ha]
      exact ih acc h
    · rw [Bool.not_eq_true] at ha
      rw [if_neg (by rw [ha]; exact Bool.false_ne_true), setParam_of_not_has a.1 a.2 ha]
      exact ih _ (List.mem_append_left _ h)

theorem hasParam_append_left {ps : List (String × String)} {k : String}
    (l : List (String × String)) (h : hasParam ps k = true) :
    hasParam (ps ++ l) k = true := by
  rw [hasParam] at h ⊢
  rw [List.any_append, h]
  rfl

theorem lookupParam_append_of_has {k : String} :
    ∀ {ps : List (String × String)}, hasParam ps k = true →
      ∀ l : List (String × String), lookupParam (ps ++ l) k = lookupParam ps k := by
  intro ps
  induction ps with
  | nil => intro h; exact absurd h (by simp [hasParam])
  | cons q rest ih =>
    intro h l
    rw [hasParam, List.any_cons, Bool.or_eq_true] at h
    rw [List.cons_append, lookupParam, lookupParam, List.find?_cons, List.find?_cons]
    by_cases hq : (q.1 == k) = true
    · rw [hq]
    · rw [Bool.not_eq_true] at hq
      rw [hq]
      rcases h with h | h
      · exact absurd h (by rw [hq]; exact Bool.false_ne_true)
      · exact ih h l

theorem critFold_lookup :
    ∀ (crit : List (String × String)) (acc : List (String × String)) (k : String),
      hasParam acc k = true →
      lookupParam (crit.foldl
        (fun ps kv => if hasParam ps kv.1 then ps else setParam ps kv.1 kv.2) acc) k =
      lookupParam acc k := by
  intro crit
  induction crit with
  | nil => intro acc k _; rfl
  | cons a rest ih =>
    intro acc k h
    rw [List.foldl_cons]
    by_cases ha : hasParam acc a.1 = true
    · rw [if_pos ha]
      exact ih acc k h
    · rw [Bool.not_eq_true] at ha
      rw [if_neg (by rw [ha]; exact Bool.false_ne_true), setParam_of_not_has a.1 a.2 ha]
      rw [ih _ k (hasParam_append_left _ h)]
      exact lookupParam_append_of_has h _

/-! ### Claim C10 -/

/-- Claim C10: `extractCriticalParams` returns a sub-mapping of its input
(each returned pair is literally a pair of the input), and the
critical-parameter insertion fold of `buildDestination` never changes the
first-match value of any parameter already present. -/
theorem c10_critical_subset (query : List (String × String)) :
    (∀ kv ∈ extractCriticalParams query, kv ∈ query) ∧
    (∀ (ps crit : List (String × String)) (k : String),
      hasParam ps k = true →
      lookupParam (crit.foldl
        (fun acc kv => if hasParam acc kv.1 then acc else setParam acc kv.1 kv.2) ps) k =
        lookupParam ps k) := by
  constructor
  · intro kv h
    exact List.mem_of_mem_filter h
  · intro ps crit k h
    exact critFold_lookup crit ps k h

/-- Claim C10, witness at a concrete query and parameter list. -/
theorem c10_critical_subset_wit :
    (("cf_token", "x") ∈ ([("cf_token", "x"), ("b", "2")] : List (String × String))) ∧
    lookupParam ([("token", "t")].foldl
      (fun acc kv => if hasParam acc kv.1 then acc else setParam acc kv.1 kv.2)
      [("token", "t0"), ("b", "2")]) "token" =
      lookupParam [("token", "t0"), ("b", "2")] "token" :=
  ⟨(c10_critical_subset [("cf_token", "x"), ("b", "2")]).1 ("cf_token", "x") (by decide),
   (c10_critical_subset []).2 [("token", "t0"), ("b", "2")] [("token", "t")] "token"
     (by decide)⟩

/-! ### Claim C7 -/

/-- A member's image is an infix of the `&`-joined images. -/
theorem mem_joinAmp_inf {α : Type} (f : α → List Char) :
    ∀ (xs : List α) (x : α), x ∈ xs → f x <:+: joinAmp (xs.map f) := by
  intro xs
  induction xs with
  | nil => intro x h; exact absurd h (List.not_mem_nil x)
  | cons y ys ih =>
    intro x hmem
    rcases List.mem_cons.mp hmem with rfl | hmem'
    · cases ys with
      | nil => exact List.infix_rfl
      | cons z zs => exact ⟨[], '&' :: joinAmp ((z :: zs).map f), rfl⟩
    · cases ys with
      | nil => exact absurd hmem' (List.not_mem_nil x)
      | cons z zs => exact infAppendRight (f y) (infConsOf '&' (ih x hmem'))

/-- A pair of the search parameters appears urlencoded as an infix of the
serialized URL. -/
theorem pair_inf_serializeURL {k v : String} {u' : URLRec}
    (h : (k, v) ∈ u'.query) : encPair (k, v) <:+: serializeURL u' := by
  have h1 : encPair (k, v) <:+: serializeQueryL u'.query :=
    mem_joinAmp_inf encPair u'.query (k, v) h
  have hne : u'.query.isEmpty = false := by
    cases hq : u'.query with
    | nil => rw [hq] at h; exact absurd h (List.not_mem_nil _)
    | cons a l => rfl
  rw [serializeURL, hne]
  simp only [Bool.false_eq_true, if_false]
  exact infAppendRight _ (infAppendRight _ (infAppendRight _ (infConsOf '?' h1)))

/-- Claim C7: for any parsable base URL and any query containing
`a = 1` and `token = xyz` (with distinct keys), the destination string
contains both `a=1` and `token=xyz`; the destination is computed before
and independently of the chosen redirect method. -/
theorem c7_params_roundtrip (baseUrl originalUrl : String) (u : URLRec)
    (hparse : parseURL baseUrl = some u)
    (query : List (String × String))
    (hnodup : (query.map Prod.fst).Nodup)
    (ha : ("a", "1") ∈ query) (ht : ("token", "xyz") ∈ query) :
    ∃ dest, buildDestination baseUrl originalUrl query
        (extractCriticalParams query) = some dest ∧
      strContains dest "a=1" = true ∧ strContains dest "token=xyz" = true := by
  rw [buildDestination, hparse]
  refine ⟨_, rfl, ?_, ?_⟩
  · rw [strContains_iff]
    have hm : ("a", "1") ∈ ((extractCriticalParams query).foldl
        (fun ps kv => if hasParam ps kv.1 then ps else setParam ps kv.1 kv.2)
        (query.foldl (fun ps kv => setParam ps kv.1 kv.2)
          (if originalUrl ≠ "/" then setPathname u originalUrl else u).query)) :=
      critFold_mem _ _ (foldSet_mem query _ ha hnodup)
    have he : ("a=1" : String).data = encPair ("a", "1") := by decide
    rw [he]
    exact pair_inf_serializeURL hm
  · rw [strContains_iff]
    have hm : ("token", "xyz") ∈ ((extractCriticalParams query).foldl
        (fun ps kv => if hasParam ps kv.1 then ps else setParam ps kv.1 kv.2)
        (query.foldl (fun ps kv => setParam ps kv.1 kv.2)
          (if originalUrl ≠ "/" then setPathname u originalUrl else u).query)) :=
      critFold_mem _ _ (foldSet_mem query _ ht hnodup)
    have he : ("token=xyz" : String).data = encPair ("token", "xyz") := by decide
    rw [he]
    exact pair_inf_serializeURL hm

/-- Claim C7, witness at a concrete base URL and query. -/
theorem c7_params_roundtrip_wit :
    ∃ dest, buildDestination "https://example.org" "/page"
        [("a", "1"), ("token", "xyz")]
        (extractCriticalParams [("a", "1"), ("token", "xyz")]) = some dest ∧
      strContains dest "a=1" = true ∧ strContains dest "token=xyz" = true :=
  c7_params_roundtrip "https://example.org" "/page"
    ⟨"https", "example.org", "/", []⟩ (by decide)
    [("a", "1"), ("token", "xyz")] (by decide) (by decide) (by decide)

/-! ### Claim C1 -/

/-- Claim C1, evaluation at the failing input: the handler passes
`req.originalUrl` — which still contains the query string — into the
`pathname` setter, so for a request to `/verify?cf_clearance=abc` with
base `https://example.org/login` the `?` is percent-encoded into the path
and the destination's path component is `/verify%3Fcf_clearance=abc`,
not `/verify` (the query does contain `cf_clearance=abc`). -/
theorem c1_failing_eval :
    buildDestination "https://example.org/login" "/verify?cf_clearance=abc"
      [("cf_clearance", "abc")] (extractCriticalParams [("cf_clearance", "abc")]) =
      some "https://example.org/verify%3Fcf_clearance=abc?cf_clearance=abc" ∧
    (parseURL "https://example.org/login").map
      (fun u => (setPathname u "/verify?cf_clearance=abc").path) =
      some "/verify%3Fcf_clearance=abc" ∧
    "/verify%3Fcf_clearance=abc" ≠ "/verify" := by
  refine ⟨by decide, by decide, by decide⟩

/-! ### Character-class lemmas for the injection-safety claim (C3) -/

theorem hexDigitChar_mem (n : Nat) : hexDigitChar n ∈ hexUpperChars := by
  rw [hexDigitChar]
  have h : n % 16 < 16 := Nat.mod_lt n (by norm_num)
  have : n % 16 < hexUpperChars.length := by
    rw [show hexUpperChars.length = 16 from rfl]
    exact h
  rw [List.getD_eq_getElem _ _ this]
  exact List.getElem_mem this

theorem badChar_false_of_hexUpper : ∀ c ∈ hexUpperChars, badChar c = false := by
  decide

theorem encByte_noBad (b : Nat) : ∀ c ∈ encByte b, badChar c = false := by
  intro c hc
  rw [encByte] at hc
  rcases List.mem_cons.mp hc with rfl | hc
  · decide
  rcases List.mem_cons.mp hc with rfl | hc
  · exact badChar_false_of_hexUpper _ (hexDigitChar_mem _)
  rcases List.mem_cons.mp hc with rfl | hc
  · exact badChar_false_of_hexUpper _ (hexDigitChar_mem _)
  · exact absurd hc (List.not_mem_nil c)

theorem encByteSeq_noBad : ∀ bs : List Nat, ∀ c ∈ encByteSeq bs, badChar c = false := by
  intro bs
  induction bs with
  | nil => intro c hc; exact absurd hc (List.not_mem_nil c)
  | cons b rest ih =>
    intro c hc
    rcases List.mem_append.mp hc with hc | hc
    · exact encByte_noBad b c hc
    · exact ih c hc

theorem badChar_eq_bad {c : Char} (h : badChar c = true) :
    c = '<' ∨ c = '>' ∨ c = '"' := by
  rw [badChar, Bool.or_eq_true, Bool.or_eq_true] at h
  rcases h with (h | h) | h
  · exact Or.inl (eq_of_beq h)
  · exact Or.inr (Or.inl (eq_of_beq h))
  · exact Or.inr (Or.inr (eq_of_beq h))

theorem formEncChar_noBad (c : Char) : ∀ c' ∈ formEncChar c, badChar c' = false := by
  intro c' hc'
  rw [formEncChar] at hc'
  by_cases hsp : (c == ' ') = true
  · rw [if_pos hsp] at hc'
    rcases List.mem_cons.mp hc' with rfl | hc'
    · decide
    · exact absurd hc' (List.not_mem_nil c')
  · rw [Bool.not_eq_true] at hsp
    rw [hsp] at hc'
    simp only [Bool.false_eq_true, if_false] at hc'
    by_cases hsafe : isFormSafe c = true
    · rw [if_pos hsafe] at hc'
      rcases List.mem_cons.mp hc' with rfl | hc'
      · by_cases hb : badChar c' = true
        · rcases badChar_eq_bad hb with rfl | rfl | rfl <;> exact absurd hsafe (by decide)
        · rw [Bool.not_eq_true] at hb; exact hb
      · exact absurd hc' (List.not_mem_nil c')
    · rw [Bool.not_eq_true] at hsafe
      rw [hsafe] at hc'
      simp only [Bool.false_eq_true, if_false] at hc'
      exact encByteSeq_noBad _ c' hc'

theorem urlencodeL_noBad : ∀ l : List Char, ∀ c ∈ urlencodeL l, badChar c = false := by
  intro l
  induction l with
  | nil => intro c hc; exact absurd hc (List.not_mem_nil c)
  | cons a rest ih =>
    intro c hc
    rcases List.mem_append.mp hc with hc | hc
    · exact formEncChar_noBad a c hc
    · exact ih c hc

theorem pathEncChar_noBad (c : Char) : ∀ c' ∈ pathEncChar c, badChar c' = false := by
  intro c' hc'
  rw [pathEncChar] at hc'
  by_cases hset : inPathEncodeSet c = true
  · rw [if_pos hset] at hc'
    exact encByteSeq_noBad _ c' hc'
  · rw [Bool.not_eq_true] at hset
    rw [hset] at hc'
    simp only [Bool.false_eq_true, if_false] at hc'
    rcases List.mem_cons.mp hc' with rfl | hc'
    · by_cases hb : badChar c' = true
      · rcases badChar_eq_bad hb with rfl | rfl | rfl <;> exact absurd hset (by decide)
      · rw [Bool.not_eq_true] at hb; exact hb
    · exact absurd hc' (List.not_mem_nil c')

theorem encodeSeg_noBad : ∀ l : List Char, ∀ c ∈ encodeSeg l, badChar c = false := by
  intro l
  induction l with
  | nil => intro c hc; exact absurd hc (List.not_mem_nil c)
  | cons a rest ih =>
    intro c hc
    rcases List.mem_append.mp hc with hc | hc
    · exact pathEncChar_noBad a c hc
    · exact ih c hc

theorem joinSlash_noBad : ∀ xs : List (List Char),
    (∀ x ∈ xs, ∀ c ∈ x, badChar c = false) →
    ∀ c ∈ joinSlash xs, badChar c = false := by
  intro xs
  induction xs with
  | nil => intro _ c hc; exact absurd hc (List.not_mem_nil c)
  | cons x ys ih =>
    intro hall c hc
    cases ys with
    | nil => exact hall x (List.mem_singleton.mpr rfl) c hc
    | cons y zs =>
      rcases List.mem_append.mp hc with hc | hc
      · exact hall x (List.mem_cons_self _ _) c hc
      rcases List.mem_cons.mp hc with rfl | hc
      · decide
      · exact ih (fun z hz => hall z (List.mem_cons_of_mem x hz)) c hc

theorem joinAmp_noBad : ∀ xs : List (List Char),
    (∀ x ∈ xs, ∀ c ∈ x, badChar c = false) →
    ∀ c ∈ joinAmp xs, badChar c = false := by
  intro xs
  induction xs with
  | nil => intro _ c hc; exact absurd hc (List.not_mem_nil c)
  | cons x ys ih =>
    intro hall c hc
    cases ys with
    | nil => exact hall x (List.mem_singleton.mpr rfl) c hc
    | cons y zs =>
      rcases List.mem_append.mp hc with hc | hc
      · exact hall x (List.mem_cons_self _ _) c hc
      rcases List.mem_cons.mp hc with rfl | hc
      · decide
      · exact ih (fun z hz => hall z (List.mem_cons_of_mem x hz)) c hc

theorem encodePath_noBad (s : String) :
    ∀ c ∈ (encodePath s).data, badChar c = false := by
  intro c hc
  rw [encodePath] at hc
  rcases List.mem_cons.mp hc with rfl | hc
  · decide
  · refine joinSlash_noBad _ ?_ c hc
    intro x hx
    rcases List.mem_map.mp hx with ⟨seg, _, rfl⟩
    exact encodeSeg_noBad seg

theorem encPair_noBad (p : String × String) : ∀ c ∈ encPair p, badChar c = false := by
  intro c hc
  rw [encPair] at hc
  rcases List.mem_append.mp hc with hc | hc
  · exact urlencodeL_noBad _ c hc
  rcases List.mem_cons.mp hc with rfl | hc
  · decide
  · exact urlencodeL_noBad _ c hc

theorem serializeQueryL_noBad (q : List (String × String)) :
    ∀ c ∈ serializeQueryL q, badChar c = false := by
  refine joinAmp_noBad _ ?_
  intro x hx
  rcases List.mem_map.mp hx with ⟨p, _, rfl⟩
  exact encPair_noBad p

theorem serializeURL_noBad (u' : URLRec)
    (hs : ∀ c ∈ u'.scheme.data, badChar c = false)
    (hh : ∀ c ∈ u'.host.data, badChar c = false)
    (hp : ∀ c ∈ u'.path.data, badChar c = false) :
    ∀ c ∈ serializeURL u', badChar c = false := by
  intro c hc
  rw [serializeURL] at hc
  rcases List.mem_append.mp hc with hc | hc
  · exact hs c hc
  rcases List.mem_append.mp hc with hc | hc
  · rcases List.mem_cons.mp hc with rfl | hc
    · decide
    rcases List.mem_cons.mp hc with rfl | hc
    · decide
    rcases List.mem_cons.mp hc with rfl | hc
    · decide
    · exact hh c hc
  rcases List.mem_append.mp hc with hc | hc
  · exact hp c hc
  · cases hq : u'.query.isEmpty with
    | true => rw [hq] at hc; exact absurd hc (List.not_mem_nil c)
    | false =>
      rw [hq] at hc
      simp only [Bool.false_eq_true, if_false] at hc
      rcases List.mem_cons.mp hc with rfl | hc
      · decide
      · exact serializeQueryL_noBad _ c hc

theorem serializeURL_ne_nil (u' : URLRec) : serializeURL u' ≠ [] := by
  rw [serializeURL]
  intro h
  rcases List.append_eq_nil.mp h with ⟨_, h2⟩
  rcases List.append_eq_nil.mp h2 with ⟨h3, _⟩
  exact List.cons_ne_nil _ _ h3

/-! ### Anchor-occurrence analysis for the three HTML bodies (C3) -/

theorem anchor_not_in_noBad {l : List Char}
    (h : ∀ c ∈ l, badChar c = false) : ¬ xssAnchor <:+: l := by
  intro hin
  have hlt : '<' ∈ xssAnchor := by decide
  have := h '<' (infSubset hin hlt)
  exact absurd this (by decide)

theorem anchor_not_in_numeric {l : List Char}
    (h : ∀ c ∈ l, numericChar c = true) : ¬ xssAnchor <:+: l := by
  intro hin
  have hlt : '<' ∈ xssAnchor := by decide
  have := h '<' (infSubset hin hlt)
  exact absurd this (by decide)

theorem quote_mem_take {k : Nat} (hk : 0 < k) : '"' ∈ xssAnchor.take k := by
  cases k with
  | zero => omega
  | succ k' =>
    have he : xssAnchor = '"' :: xssAnchor.tail := by decide
    rw [he]
    exact List.mem_cons_self _ _

theorem straddle_left_numeric {k : Nat} {X : List Char} (hk : 0 < k)
    (hsuf : xssAnchor.take k <:+ X)
    (hnum : ∀ c ∈ X, numericChar c = true) : False := by
  have := hnum '"' (sufSubset hsuf (quote_mem_take hk))
  exact absurd this (by decide)

theorem straddle_left_noBad {k : Nat} {X : List Char} (hk : 0 < k)
    (hsuf : xssAnchor.take k <:+ X)
    (hX : ∀ c ∈ X, badChar c = false) : False := by
  have := hX '"' (sufSubset hsuf (quote_mem_take hk))
  exact absurd this (by decide)

theorem noPreHead {t Y R : List Char} {c : Char} (ht : t.head? = some c)
    (hY : Y ≠ []) (hc : c ∉ Y) (hp : t <+: Y ++ R) : False := by
  have htn : t ≠ [] := by
    intro h
    rw [h] at ht
    exact Option.noConfusion ht
  have h1 : (Y ++ R).head? = t.head? := preHead hp htn
  rw [headAppend R hY] at h1
  exact hc (headMem (h1.trans ht))

theorem gt_not_mem_numeric {Y : List Char}
    (hnum : ∀ c ∈ Y, numericChar c = true) : '>' ∉ Y := by
  intro hm
  exact absurd (hnum '>' hm) (by decide)

theorem gt_not_mem_noBad {Y : List Char}
    (hY : ∀ c ∈ Y, badChar c = false) : '>' ∉ Y := by
  intro hm
  exact absurd (hY '>' hm) (by decide)

theorem anchor_not_in_concrete {t : List Char}
    (h : containsSeq xssAnchor t = false) : ¬ xssAnchor <:+: t := by
  intro hin
  rw [← containsSeq_iff] at hin
  rw [h] at hin
  exact Bool.false_ne_true hin

theorem straddle_left_concrete {k : Nat} {t : List Char} (hk0 : 0 < k) (hk4 : k < 4)
    (h1 : strEnds (xssAnchor.take 1) t = false)
    (h2 : strEnds (xssAnchor.take 2) t = false)
    (h3 : strEnds (xssAnchor.take 3) t = false)
    (hsuf : xssAnchor.take k <:+ t) : False := by
  rw [← strEnds_iff] at hsuf
  have : k = 1 ∨ k = 2 ∨ k = 3 := by omega
  rcases this with rfl | rfl | rfl
  · rw [h1] at hsuf; exact Bool.false_ne_true hsuf
  · rw [h2] at hsuf; exact Bool.false_ne_true hsuf
  · rw [h3] at hsuf; exact Bool.false_ne_true hsuf

theorem anchor_len : xssAnchor.length = 4 := by decide

/-- The `"` `>` `<` `s` anchor cannot occur in the `meta` page: the
template chunks do not contain it, the spliced delay is numeric, and the
spliced destination has no raw `<`, `>`, `"`. -/
theorem anchor_not_in_meta {dDiv dest : List Char}
    (hnum : ∀ c ∈ dDiv, numericChar c = true) (hne : dDiv ≠ [])
    (hdest : ∀ c ∈ dest, badChar c = false) :
    ¬ xssAnchor <:+: metaBodyL dDiv dest := by
  intro h
  rw [metaBodyL] at h
  rcases infDecomp metaA.data h with h | h
  · exact anchor_not_in_concrete (by decide) h
  rcases h with h | ⟨k, hk0, hk4, hsuf, hpre⟩
  case inr.intro.intro.intro.intro =>
    rw [anchor_len] at hk4
    have : k = 1 ∨ k = 2 ∨ k = 3 := by omega
    rcases this with rfl | rfl | rfl
    · exact noPreHead (by decide : (xssAnchor.drop 1).head? = some '>') hne
        (gt_not_mem_numeric hnum) hpre
    · exact absurd ((strEnds_iff _ _).mpr hsuf) (by decide)
    · exact absurd ((strEnds_iff _ _).mpr hsuf) (by decide)
  rcases infDecomp dDiv h with h | h
  · exact anchor_not_in_numeric hnum h
  rcases h with h | ⟨k, hk0, hk4, hsuf, hpre⟩
  case inr.intro.intro.intro.intro =>
    exact straddle_left_numeric hk0 hsuf hnum
  rcases infDecomp metaB.data h with h | h
  · exact anchor_not_in_concrete (by decide) h
  rcases h with h | ⟨k, hk0, hk4, hsuf, hpre⟩
  case inr.intro.intro.intro.intro =>
    rw [anchor_len] at hk4
    exact straddle_left_concrete hk0 hk4 (by decide) (by decide) (by decide) hsuf
  rcases infDecomp dest h with h | h
  · exact anchor_not_in_noBad hdest h
  rcases h with h | ⟨k, hk0, hk4, hsuf, hpre⟩
  case inr.intro.intro.intro.intro =>
    exact straddle_left_noBad hk0 hsuf hdest
  exact anchor_not_in_concrete (by decide) h

/-- The anchor cannot occur in the `js` page. -/
theorem anchor_not_in_js {dDiv dest dStr : List Char}
    (hnum : ∀ c ∈ dDiv, numericChar c = true)
    (hnum2 : ∀ c ∈ dStr, numericChar c = true)
    (hdest : ∀ c ∈ dest, badChar c = false) (hdne : dest ≠ []) :
    ¬ xssAnchor <:+: jsBodyL dDiv dest dStr := by
  intro h
  rw [jsBodyL] at h
  rcases infDecomp jsA.data h with h | h
  · exact anchor_not_in_concrete (by decide) h
  rcases h with h | ⟨k, hk0, hk4, hsuf, hpre⟩
  case inr.intro.intro.intro.intro =>
    rw [anchor_len] at hk4
    exact straddle_left_concrete hk0 hk4 (by decide) (by decide) (by decide) hsuf
  rcases infDecomp dDiv h with h | h
  · exact anchor_not_in_numeric hnum h
  rcases h with h | ⟨k, hk0, hk4, hsuf, hpre⟩
  case inr.intro.intro.intro.intro =>
    exact straddle_left_numeric hk0 hsuf hnum
  rcases infDecomp jsB.data h with h | h
  · exact anchor_not_in_concrete (by decide) h
  rcases h with h | ⟨k, hk0, hk4, hsuf, hpre⟩
  case inr.intro.intro.intro.intro =>
    rw [anchor_len] at hk4
    have : k = 1 ∨ k = 2 ∨ k = 3 := by omega
    rcases this with rfl | rfl | rfl
    · exact noPreHead (by decide : (xssAnchor.drop 1).head? = some '>') hdne
        (gt_not_mem_noBad hdest) hpre
    · exact absurd ((strEnds_iff _ _).mpr hsuf) (by decide)
    · exact absurd ((strEnds_iff _ _).mpr hsuf) (by decide)
  rcases infDecomp dest h with h | h
  · exact anchor_not_in_noBad hdest h
  rcases h with h | ⟨k, hk0, hk4, hsuf, hpre⟩
  case inr.intro.intro.intro.intro =>
    exact straddle_left_noBad hk0 hsuf hdest
  rcases infDecomp jsC.data h with h | h
  · exact anchor_not_in_concrete (by decide) h
  rcases h with h | ⟨k, hk0, hk4, hsuf, hpre⟩
  case inr.intro.intro.intro.intro =>
    rw [anchor_len] at hk4
    exact straddle_left_concrete hk0 hk4 (by decide) (by decide) (by decide) hsuf
  rcases infDecomp dStr h with h | h
  · exact anchor_not_in_numeric hnum2 h
  rcases h with h | ⟨k, hk0, hk4, hsuf, hpre⟩
  case inr.intro.intro.intro.intro =>
    exact straddle_left_numeric hk0 hsuf hnum2
  exact anchor_not_in_concrete (by decide) h

/-- The anchor cannot occur in the `interactive` page. -/
theorem anchor_not_in_interactive {dest : List Char}
    (hdest : ∀ c ∈ dest, badChar c = false) :
    ¬ xssAnchor <:+: intBodyL dest := by
  intro h
  rw [intBodyL] at h
  rcases infDecomp intA.data h with h | h
  · exact anchor_not_in_concrete (by decide) h
  rcases h with h | ⟨k, hk0, hk4, hsuf, hpre⟩
  case inr.intro.intro.intro.intro =>
    rw [anchor_len] at hk4
    exact straddle_left_concrete hk0 hk4 (by decide) (by decide) (by decide) hsuf
  rcases infDecomp dest h with h | h
  · exact anchor_not_in_noBad hdest h
  rcases h with h | ⟨k, hk0, hk4, hsuf, hpre⟩
  case inr.intro.intro.intro.intro =>
    exact straddle_left_noBad hk0 hsuf hdest
  exact anchor_not_in_concrete (by decide) h

theorem cleanComp_spec {s : String} (h : cleanComp s = true) :
    ∀ c ∈ s.data, badChar c = false := by
  rw [cleanComp, List.all_eq_true] at h
  intro c hc
  have := h c hc
  rwa [Bool.not_eq_true'] at this

theorem numericOK_spec {s : String} (h : numericOK s = true) :
    s.data ≠ [] ∧ ∀ c ∈ s.data, numericChar c = true := by
  rw [numericOK, Bool.and_eq_true] at h
  constructor
  · intro he
    have h1 := h.1
    rw [he] at h1
    exact absurd h1 (by decide)
  · exact fun c hc => List.all_eq_true.mp h.2 c hc

/-- The string produced by `buildDestination`, in terms of the parsed
base URL. -/
theorem dest_of_buildDestination {baseUrl originalUrl : String}
    {query crit : List (String × String)} {u : URLRec} {dest : String}
    (hparse : parseURL baseUrl = some u)
    (hdest : buildDestination baseUrl originalUrl query crit = some dest) :
    dest = ⟨serializeURL
      { (if originalUrl ≠ "/" then setPathname u originalUrl else u) with
        query := crit.foldl
          (fun ps kv => if hasParam ps kv.1 then ps else setParam ps kv.1 kv.2)
          (query.foldl (fun ps kv => setParam ps kv.1 kv.2)
            (if originalUrl ≠ "/" then setPathname u originalUrl else u).query) }⟩ := by
  rw [buildDestination, hparse] at hdest
  injection hdest with h
  exact h.symm

/-- Whenever the parsed base URL has no raw `<`, `>`, `"` in its scheme,
host and path (true of every URL the platform parser accepts), the
destination string built from it has no raw `<`, `>`, `"` either — the
path setter and the query serializer percent-encode them — and it is
nonempty. -/
theorem dest_noBad {baseUrl originalUrl : String}
    {query crit : List (String × String)} {u : URLRec} {dest : String}
    (hparse : parseURL baseUrl = some u)
    (hs : cleanComp u.scheme = true) (hh : cleanComp u.host = true)
    (hp : cleanComp u.path = true)
    (hdest : buildDestination baseUrl originalUrl query crit = some dest) :
    (∀ c ∈ dest.data, badChar c = false) ∧ dest.data ≠ [] := by
  have hd := dest_of_buildDestination hparse hdest
  rw [hd]
  rcases eq_or_ne originalUrl "/" with hc | hc
  · rw [if_neg (not_not_intro hc)]
    exact ⟨serializeURL_noBad _ (cleanComp_spec hs) (cleanComp_spec hh)
      (cleanComp_spec hp), serializeURL_ne_nil _⟩
  · rw [if_pos hc]
    exact ⟨serializeURL_noBad _ (cleanComp_spec hs) (cleanComp_spec hh)
      (encodePath_noBad originalUrl), serializeURL_ne_nil _⟩

/-! ### Claim C3 -/

/-- Claim C3, amended: every value reaching the HTML bodies does so
through the destination URL, whose query serialization and path encoding
percent-encode `"`, `<` and `>`; hence no string containing the probe
`"><script>` — in particular no query parameter value containing it —
can occur in the `meta`, `js` or `interactive` page (the apostrophe,
however, is not encoded in the path; see the counterexample). -/
theorem c3_injection_escaped (baseUrl : String) (u : URLRec)
    (hparse : parseURL baseUrl = some u)
    (hs : cleanComp u.scheme = true) (hh : cleanComp u.host = true)
    (hp : cleanComp u.path = true)
    (originalUrl : String) (query crit : List (String × String)) (dest : String)
    (hdest : buildDestination baseUrl originalUrl query crit = some dest)
    (dDiv dStr : String) (h1 : numericOK dDiv = true) (h2 : numericOK dStr = true)
    (v : String) (hv : strContains v xssNeedle = true) :
    strContains (metaBody dDiv dest) v = false ∧
    strContains (jsBody dDiv dest dStr) v = false ∧
    strContains (interactiveBody dest) v = false := by
  obtain ⟨hbad, hne⟩ := dest_noBad hparse hs hh hp hdest
  obtain ⟨hne1, hnum1⟩ := numericOK_spec h1
  obtain ⟨hne2, hnum2⟩ := numericOK_spec h2
  have hnv : xssNeedle.data <:+: v.data := (strContains_iff _ _).mp hv
  have hanchor : xssAnchor <:+: v.data :=
    infTrans (infOfPre ((strStarts_iff xssAnchor xssNeedle.data).mp (by decide))) hnv
  refine ⟨?_, ?_, ?_⟩
  · by_contra hb
    rw [Bool.not_eq_false] at hb
    have hvb : v.data <:+: (metaBody dDiv dest).data := (strContains_iff _ _).mp hb
    exact anchor_not_in_meta hnum1 hne1 hbad (infTrans hanchor hvb)
  · by_contra hb
    rw [Bool.not_eq_false] at hb
    have hvb : v.data <:+: (jsBody dDiv dest dStr).data := (strContains_iff _ _).mp hb
    exact anchor_not_in_js hnum1 hnum2 hbad hne (infTrans hanchor hvb)
  · by_contra hb
    rw [Bool.not_eq_false] at hb
    have hvb : v.data <:+: (interactiveBody dest).data := (strContains_iff _ _).mp hb
    exact anchor_not_in_interactive hbad (infTrans hanchor hvb)

/-- Claim C3, witness: a request with query value `"><script>` at a
concrete base URL; the probe does not occur in any of the three pages. -/
theorem c3_injection_escaped_wit :
    strContains (metaBody "1.5" "https://example.org/x?v=%22%3E%3Cscript%3E")
      "\"><script>" = false ∧
    strContains (jsBody "1.5" "https://example.org/x?v=%22%3E%3Cscript%3E" "1500")
      "\"><script>" = false ∧
    strContains (interactiveBody "https://example.org/x?v=%22%3E%3Cscript%3E")
      "\"><script>" = false :=
  c3_injection_escaped "https://example.org" ⟨"https", "example.org", "/", []⟩
    (by decide) (by decide) (by decide) (by decide)
    "/x" [("v", "\"><script>")] [] "https://example.org/x?v=%22%3E%3Cscript%3E"
    (by decide) "1.5" "1500" (by decide) (by decide) "\"><script>" (by decide)

/-- Claim C3, counterexample to "every user-supplied value embedded into
the generated HTML or script content is escaped/encoded": the path
percent-encode set does not contain the apostrophe, so a request path
containing `'` reaches the `interactive` page verbatim inside the
single-quoted `onclick` JavaScript string — the page contains
`window.location.href='https://example.org/a';alert(1);''`, i.e. the
user-supplied path broke out of the string and injected script. -/
theorem c3_counterexample :
    buildDestination "https://example.org" "/a';alert(1);'" [] [] =
      some "https://example.org/a';alert(1);'" ∧
    strContains (interactiveBody "https://example.org/a';alert(1);'")
      "window.location.href='https://example.org/a';alert(1);''" = true := by
  refine ⟨by decide, by decide⟩
